import Mathlib

/-
Verification of the store-traversal and reconstruction logic of
`spatialdata/_io/read.py`: multiscale pyramid assembly (`_read_multiscale`),
node classification inside `read_zarr`, the geometry decoder
(`_read_polygons`), the annotation-table attribute normalization performed
inline in `read_zarr`, and the fold over top-level groups that builds the
final `SpatialData` value.

The embedding is shallow: each Python function is translated into a Lean
function over explicit data; fallible operations (Python exceptions:
`AssertionError`, `IndexError`, `ValueError`) are modelled with
`Except String`.  Array payloads are kept abstract through a type
parameter `α`; external readers (`zarr.open`, `read_anndata_zarr`,
`ome_zarr.Reader`) are modelled as already-materialized input records,
since the core under verification only consumes their results.
-/

set_option autoImplicit false

namespace SpatialDataRead

/-- A raw transformation description record, as found under
`coordinateTransformations` in the zarr attributes (an opaque JSON-like
mapping; its internal shape is owned by the external transform decoder). -/
structure TransformDesc where
  fields : List (String × String)
deriving DecidableEq

/-- Modelled from the spec: `get_transformation_from_dict` (module
`spatialdata._core.transformations`, not part of the source under
verification) is the external TransformDecoder, "a pure function" turning a
description record into an opaque typed transformation value.  We model the
produced value as a wrapper of the record it was decoded from. -/
structure BaseTransformation where
  desc : TransformDesc
deriving DecidableEq

/-- The external transform decoder, treated as a pure injective constructor. -/
def get_transformation_from_dict (d : TransformDesc) : BaseTransformation :=
  ⟨d⟩

/-- The multiscale metadata of an `ome_zarr` node, as consumed by
`_read_multiscale`: `node.load(Multiscales).datasets` (the declared
resolution dataset paths, finest first), `node.metadata` entries
`coordinateTransformations` (a list of lists of description records: the
code takes `t[0]` of each entry), `name` and `axes`, and the array loader
`node.load(Multiscales).array(resolution=d, ...)` modelled as a function
from the dataset path to the array payload. -/
structure MSNode (α : Type) where
  datasets : List String
  coordinateTransformations : List (List TransformDesc)
  name : String
  axes : List String
  array : String → α

/-- One resolution level: `DataArray(data, name=name, dims=axes,
attrs={"transform": t})`. -/
structure DataArrayL (α : Type) where
  data : α
  name : String
  dims : List String
  transform : BaseTransformation
deriving DecidableEq

/-- The value produced by `_read_multiscale`: either a bare `SpatialImage`
(single resolution level) or a `MultiscaleSpatialImage` built
`from_dict` of a keyed collection of levels. -/
inductive Element (α : Type) where
  | single (lv : DataArrayL α)
  | multiscale (lvls : List (String × DataArrayL α))
deriving DecidableEq

/-- Number of resolution levels carried by an element. -/
def numLevels {α : Type} : Element α → Nat
  | .single _ => 1
  | .multiscale lvls => lvls.length

/-- The synthetic pyramid level key `f"scale{i}"`. -/
def scaleKey (i : Nat) : String :=
  "scale" ++ toString i

/-- The Python list comprehension
`[get_transformation_from_dict(t[0]) for t in node.metadata["coordinateTransformations"]]`:
indexing `t[0]` raises `IndexError` when an entry is empty. -/
def parseTransforms : List (List TransformDesc) → Except String (List BaseTransformation)
  | [] => .ok []
  | [] :: _ => .error "list index out of range"
  | (d :: _) :: rest =>
    match parseTransforms rest with
    | .ok ts => .ok (get_transformation_from_dict d :: ts)
    | .error e => .error e

/-- Builds one `DataArray` level of the pyramid for transformation `t` and
dataset path `d`. -/
def mkLevel {α : Type} (node : MSNode α) (t : BaseTransformation) (d : String) : DataArrayL α :=
  { data := node.array d, name := node.name, dims := node.axes, transform := t }

/-- The loop `for i, (t, d) in enumerate(zip(transformations, datasets))`
filling `multiscale_image[f"scale{i}"]`; `i` is the running index. -/
def buildPyramid {α : Type} (node : MSNode α) :
    List BaseTransformation → List String → Nat → List (String × DataArrayL α)
  | [], _, _ => []
  | _ :: _, [], _ => []
  | t :: ts, d :: ds, i => (scaleKey i, mkLevel node t d) :: buildPyramid node ts ds (i + 1)

/-- Shallow embedding of `_read_multiscale`.  Mirrors the source order:
parse one transformation per `coordinateTransformations` entry (taking
`t[0]`), assert that the transformation count equals the dataset count,
then either build a keyed multiscale pyramid (more than one dataset) or
return a bare single-level element, indexing `transformations[0]` and
`datasets[0]` (which raises `IndexError` when empty). -/
def _read_multiscale {α : Type} (node : MSNode α) : Except String (Element α) :=
  match parseTransforms node.coordinateTransformations with
  | .error e => .error e
  | .ok transformations =>
    if transformations.length = node.datasets.length then
      if 1 < node.datasets.length then
        .ok (.multiscale (buildPyramid node transformations node.datasets 0))
      else
        match transformations, node.datasets with
        | [], _ => .error "list index out of range"
        | _ :: _, [] => .error "list index out of range"
        | t :: _, d :: _ => .ok (.single (mkLevel node t d))
    else .error "Expecting one transformation per dataset."

/-- The transformation parsed from one `coordinateTransformations` entry
(its first record), as a total function for use in specifications. -/
def parsedTransform (t : List TransformDesc) : BaseTransformation :=
  get_transformation_from_dict (t.headD ⟨[]⟩)

/-! ## Node classification (`read_zarr` main loop) -/

/-- The kind of a spec marker attached by the `ome_zarr` reader to a node:
`Multiscales`, `Label`, or any other spec class. -/
inductive SpecKind where
  | multiscales
  | labelMarker
  | otherSpec (n : String)
deriving DecidableEq

/-- Python `isinstance(spec, Multiscales)`. -/
def isMultiscalesSpec : SpecKind → Bool
  | .multiscales => true
  | _ => false

/-- Python `isinstance(spec, Label)`. -/
def isLabelSpec : SpecKind → Bool
  | .labelMarker => true
  | _ => false

/-- An `ome_zarr` node as consumed by the `read_zarr` loops: its declared
spec markers plus the multiscale metadata used by `_read_multiscale`. -/
structure ZNodeData (α : Type) where
  specs : List SpecKind
  node : MSNode α

/-- The image-classification predicate of `read_zarr`:
`np.any([isinstance(spec, Multiscales) for spec in node.specs]) and
np.all([not isinstance(spec, Label) for spec in node.specs])`. -/
def isImageNode (specs : List SpecKind) : Bool :=
  specs.any isMultiscalesSpec && specs.all (fun s => !isLabelSpec s)

/-- The label-classification predicate of `read_zarr`:
`np.any([isinstance(spec, Multiscales) for spec in node.specs]) and
np.any([isinstance(spec, Label) for spec in node.specs])`. -/
def isLabelNode (specs : List SpecKind) : Bool :=
  specs.any isMultiscalesSpec && specs.any isLabelSpec

/-- Python dict assignment `m[k] = v`: replaces the value in place when the
key exists, appends a new entry otherwise. -/
def dictInsert {β : Type} (m : List (String × β)) (k : String) (v : β) : List (String × β) :=
  if m.any (fun p => p.1 = k) then m.map (fun p => if p.1 = k then (k, v) else p)
  else m ++ [(k, v)]

/-- The loop `for node in image_nodes` of `read_zarr`: every node passing
the image predicate is assembled by `_read_multiscale` and stored under
`images[k]` (a later matching node overwrites an earlier one). -/
def processImageNodes {α : Type} (images : List (String × Element α)) (k : String) :
    List (ZNodeData α) → Except String (List (String × Element α))
  | [] => .ok images
  | n :: rest =>
    if isImageNode n.specs then
      match _read_multiscale n.node with
      | .error e => .error e
      | .ok el => processImageNodes (dictInsert images k el) k rest
    else processImageNodes images k rest

/-- The loop `for node in labels_nodes` of `read_zarr`: every node passing
the label predicate is assembled by `_read_multiscale` and stored under
`labels[k]`. -/
def processLabelNodes {α : Type} (labels : List (String × Element α)) (k : String) :
    List (ZNodeData α) → Except String (List (String × Element α))
  | [] => .ok labels
  | n :: rest =>
    if isLabelNode n.specs then
      match _read_multiscale n.node with
      | .error e => .error e
      | .ok el => processLabelNodes (dictInsert labels k el) k rest
    else processLabelNodes labels k rest

/-! ## Geometry decoding (`_read_polygons`) -/

/-- One entry of `attrs["multiscales"][i]["datasets"]` as read by the
point/polygon/shape decoders: it carries `coordinateTransformations`. -/
structure MSDatasetMeta where
  coordinateTransformations : List TransformDesc
deriving DecidableEq

/-- One entry of `attrs["multiscales"]`. -/
structure MSEntryMeta where
  datasets : List MSDatasetMeta
deriving DecidableEq

/-- Canonical geometry-type names of the external `shapely.GeometryType`
enum (`GeometryType(code).name`); an invalid numeric code makes the enum
constructor raise `ValueError`. -/
def geometryTypeName (c : Int) : Option String :=
  if c = -1 then some "MISSING"
  else if c = 0 then some "POINT"
  else if c = 1 then some "LINESTRING"
  else if c = 2 then some "LINEARRING"
  else if c = 3 then some "POLYGON"
  else if c = 4 then some "MULTIPOINT"
  else if c = 5 then some "MULTILINESTRING"
  else if c = 6 then some "MULTIPOLYGON"
  else if c = 7 then some "GEOMETRYCOLLECTION"
  else none

/-- The on-disk polygons group consumed by `_read_polygons`: the `coords`
array, the `offsets` array (split in two by `np.split(..., 2)`), the
`spatialdata_attrs.geos` pair of numeric `geometry_type` and redundant
`geometry_name`, and the `multiscales` attribute holding the
transformation records. -/
structure PolygonStore where
  coords : List (Int × Int)
  offsets : List Int
  geometry_type : Int
  geometry_name : String
  multiscales : List MSEntryMeta
deriving DecidableEq

/-- The value of the external `shapely.io.from_ragged_array`: a sequence of
geometries reconstructed from the type code, flat coordinates and the two
offset arrays.  Modelled as the packaged inputs, which determine it. -/
structure RaggedGeometry where
  typ : Int
  coords : List (Int × Int)
  offsets : List Int × List Int
deriving DecidableEq

/-- The decoded polygons element: a `GeoDataFrame` whose single `geometry`
column holds the geometries and whose out-of-band `.attrs` mapping carries
the transformation (`geo_df.attrs = {"transform": transforms}`). -/
structure GeoDataFrame where
  geometry : RaggedGeometry
  attrsTransform : BaseTransformation
deriving DecidableEq

/-- `np.split(offsets, 2)`: fails with `ValueError` unless the length is an
equal division, otherwise yields the two halves. -/
def npSplit2 (xs : List Int) : Except String (List Int × List Int) :=
  if xs.length % 2 = 0 then .ok (xs.take (xs.length / 2), xs.drop (xs.length / 2))
  else .error "array split does not result in an equal division"

/-- Shallow embedding of `_read_polygons`, following the source order: read
`coords` and split `offsets`, convert the numeric code through the
`GeometryType` enum, assert `typ.name == geometry_name`, index
`multiscales[0]["datasets"][0]["coordinateTransformations"][0]` (each
indexing raises on an empty list), decode the transformation, and build the
`GeoDataFrame` with the transformation in its `.attrs`. -/
def _read_polygons (f : PolygonStore) : Except String GeoDataFrame :=
  match npSplit2 f.offsets with
  | .error e => .error e
  | .ok offsets =>
    match geometryTypeName f.geometry_type with
    | none => .error "is not a valid GeometryType"
    | some typName =>
      if typName = f.geometry_name then
        match f.multiscales with
        | [] => .error "list index out of range"
        | ms :: _ =>
          match ms.datasets with
          | [] => .error "list index out of range"
          | d :: _ =>
            match d.coordinateTransformations with
            | [] => .error "list index out of range"
            | ct :: _ =>
              .ok { geometry := ⟨f.geometry_type, f.coords, offsets⟩,
                    attrsTransform := get_transformation_from_dict ct }
      else .error "AssertionError"

/-- The first transformation record the polygon decoder would use:
`multiscales[0]["datasets"][0]["coordinateTransformations"][0]`, `none`
when any level of that path is an empty list. -/
def firstCT (f : PolygonStore) : Option TransformDesc :=
  match f.multiscales with
  | [] => none
  | ms :: _ =>
    match ms.datasets with
    | [] => none
    | d :: _ => d.coordinateTransformations.head?

/-! ## Annotation tables and attribute normalization (`read_zarr` table branch) -/

/-- A value inside the table's attribute-group block: `None`, a string, an
integer, a plain Python list, or a `np.ndarray` (kept distinct because the
normalizer converts the latter with `.tolist()`). -/
inductive AVal where
  | vnone
  | vstr (s : String)
  | vint (n : Int)
  | vlist (xs : List Int)
  | vndarray (xs : List Int)
deriving DecidableEq

/-- The `AnnData` value returned by the external `read_anndata_zarr`:
`unsAttrs` is `uns[TableModel.ATTRS_KEY]` when that key is present (a
mapping, kept in insertion order), `unsOther` stands for every other `uns`
entry, and `xdata` stands for the row data (`X`, `obs`, `var`, ...). -/
structure AnnData where
  unsAttrs : Option (List (String × AVal))
  unsOther : List (String × String)
  xdata : List (List Int)
deriving DecidableEq

/-- `TableModel.ATTRS_KEY` (module `spatialdata._core.models`, not part of
the source under verification): the fixed attribute-group key. -/
def ATTRS_KEY : String := "spatialdata_attrs"

/-- First-match lookup in an attribute mapping (Python `attrs[k]` on a dict
read from JSON; keys are unique there, so first-match is exact). -/
def alookup : List (String × AVal) → String → Option AVal
  | [], _ => none
  | p :: rest, k => if p.1 = k then some p.2 else alookup rest k

/-- Key-presence test, Python `k in attrs`. -/
def hasKey (a : List (String × AVal)) (k : String) : Bool :=
  a.any (fun p => p.1 = k)

/-- Python `if k not in attrs: attrs[k] = None` — inserting a fresh key
appends it at the end of the mapping (dict insertion order). -/
def setdefaultNone (a : List (String × AVal)) (k : String) : List (String × AVal) :=
  if hasKey a k then a else a ++ [(k, .vnone)]

/-- Python `attrs[k] = v` on an existing key: updates the value in place,
keeping the entry's position. -/
def updateVal (a : List (String × AVal)) (k : String) (v : AVal) : List (String × AVal) :=
  a.map (fun p => if p.1 = k then (p.1, v) else p)

/-- The three `if k not in attrs: attrs[k] = None` statements of the table
branch, in source order: `region`, then `region_key`, then `instance_key`. -/
def defaultedAttrs (a : List (String × AVal)) : List (String × AVal) :=
  setdefaultNone (setdefaultNone (setdefaultNone a "region") "region_key") "instance_key"

/-- The inline attribute fix of `read_zarr`'s table branch: default the
keys `region`, `region_key` and `instance_key` to `None` when absent, then
convert a `region` stored as `np.ndarray` to a plain list via `.tolist()`
(`if "region" in attrs and isinstance(attrs["region"], np.ndarray)`). -/
def fixTableAttrs (a : List (String × AVal)) : List (String × AVal) :=
  match alookup (defaultedAttrs a) "region" with
  | some (.vndarray xs) => updateVal (defaultedAttrs a) "region" (.vlist xs)
  | _ => defaultedAttrs a

/-- The table branch of `read_zarr` after `read_anndata_zarr`: the fix runs
only under `if TableModel.ATTRS_KEY in table.uns`, mutating
`table.uns[ATTRS_KEY]` in place and touching nothing else. -/
def normalizeTable (t : AnnData) : AnnData :=
  match t.unsAttrs with
  | some a => { t with unsAttrs := some (fixTableAttrs a) }
  | none => t

/-! ## Points and shapes decoders -/

/-- The on-disk points group consumed by `_read_points`: the `multiscales`
attribute and the `AnnData` payload read by `read_anndata_zarr`. -/
structure PointsStore where
  multiscales : List MSEntryMeta
  adata : AnnData
deriving DecidableEq

/-- The decoded points element: the `AnnData` with the transformation
stored under `uns["transform"]`. -/
structure PointsElem where
  adata : AnnData
  transform : BaseTransformation
deriving DecidableEq

/-- Shallow embedding of `_read_points`: index
`multiscales[0]["datasets"][0]["coordinateTransformations"][0]`, decode the
transformation, and attach it to the loaded `AnnData`. -/
def _read_points (st : PointsStore) : Except String PointsElem :=
  match st.multiscales with
  | [] => .error "list index out of range"
  | ms :: _ =>
    match ms.datasets with
    | [] => .error "list index out of range"
    | d :: _ =>
      match d.coordinateTransformations with
      | [] => .error "list index out of range"
      | ct :: _ => .ok ⟨st.adata, get_transformation_from_dict ct⟩

/-- The on-disk shapes group consumed by `_read_shapes`: `multiscales`, the
`spatialdata_attrs` record, and the `AnnData` payload. -/
structure ShapesStore where
  multiscales : List MSEntryMeta
  spatialdata_attrs : List (String × AVal)
  adata : AnnData
deriving DecidableEq

/-- The decoded shapes element: the `AnnData` with `uns["transform"]` and
`uns["spatialdata_attrs"]` attached. -/
structure ShapesElem where
  adata : AnnData
  transform : BaseTransformation
  spatialdata_attrs : List (String × AVal)
deriving DecidableEq

/-- Shallow embedding of `_read_shapes`. -/
def _read_shapes (st : ShapesStore) : Except String ShapesElem :=
  match st.multiscales with
  | [] => .error "list index out of range"
  | ms :: _ =>
    match ms.datasets with
    | [] => .error "list index out of range"
    | d :: _ =>
      match d.coordinateTransformations with
      | [] => .error "list index out of range"
      | ct :: _ => .ok ⟨st.adata, get_transformation_from_dict ct, st.spatialdata_attrs⟩

/-! ## Store traversal (`read_zarr`) -/

/-- One top-level group of the store, as materialized for the walk: the key
`k`, the nodes produced by `Reader(ZarrLocation(f_elem_store))`, the nodes
under the nested `labels` sub-path (`none` when `labels_loc.exists()` is
false), and the optional secondary sub-groups `points` / `polygons` /
`shapes` / `table` (each group member name occurs at most once). -/
structure TopGroup (α : Type) where
  key : String
  imageNodes : List (ZNodeData α)
  labelsNodes : Option (List (ZNodeData α))
  pointsStore : Option PointsStore
  polygonsStore : Option PolygonStore
  shapesStore : Option ShapesStore
  tableStore : Option AnnData

/-- The value assembled by `read_zarr`: the five element mappings plus the
single optional table (the local accumulators `images`, `labels`, `points`,
`polygons`, `shapes`, `table` handed to the `SpatialData` constructor). -/
structure SpatialData (α : Type) where
  images : List (String × Element α)
  labels : List (String × Element α)
  points : List (String × PointsElem)
  polygons : List (String × GeoDataFrame)
  shapes : List (String × ShapesElem)
  table : Option AnnData

/-- The `labels` block of the loop body: skipped entirely when the
`labels` sub-path does not exist. -/
def processLabelsLoc {α : Type} (labels : List (String × Element α)) (k : String) :
    Option (List (ZNodeData α)) → Except String (List (String × Element α))
  | none => .ok labels
  | some ns => processLabelNodes labels k ns

/-- The `g_elem == "/points"` branch. -/
def processPoints (pts : List (String × PointsElem)) (k : String) :
    Option PointsStore → Except String (List (String × PointsElem))
  | none => .ok pts
  | some st =>
    match _read_points st with
    | .error e => .error e
    | .ok el => .ok (dictInsert pts k el)

/-- The `g_elem == "/polygons"` branch. -/
def processPolygons (polys : List (String × GeoDataFrame)) (k : String) :
    Option PolygonStore → Except String (List (String × GeoDataFrame))
  | none => .ok polys
  | some st =>
    match _read_polygons st with
    | .error e => .error e
    | .ok el => .ok (dictInsert polys k el)

/-- The `g_elem == "/shapes"` branch. -/
def processShapes (shps : List (String × ShapesElem)) (k : String) :
    Option ShapesStore → Except String (List (String × ShapesElem))
  | none => .ok shps
  | some st =>
    match _read_shapes st with
    | .error e => .error e
    | .ok el => .ok (dictInsert shps k el)

/-- The `g_elem == "/table"` branch: `table = read_anndata_zarr(...)`
followed by the inline attribute fix; a later table silently replaces the
process-wide `table` slot. -/
def processTable (tbl : Option AnnData) : Option AnnData → Option AnnData
  | none => tbl
  | some t => some (normalizeTable t)

/-- One iteration of `for k in f.keys()` in `read_zarr`: process the image
nodes, the optional `labels` sub-path, and the secondary sub-groups,
threading the accumulated mappings. -/
def readGroup {α : Type} (acc : SpatialData α) (g : TopGroup α) :
    Except String (SpatialData α) :=
  match processImageNodes acc.images g.key g.imageNodes with
  | .error e => .error e
  | .ok imgs =>
    match processLabelsLoc acc.labels g.key g.labelsNodes with
    | .error e => .error e
    | .ok lbls =>
      match processPoints acc.points g.key g.pointsStore with
      | .error e => .error e
      | .ok pts =>
        match processPolygons acc.polygons g.key g.polygonsStore with
        | .error e => .error e
        | .ok polys =>
          match processShapes acc.shapes g.key g.shapesStore with
          | .error e => .error e
          | .ok shps =>
            .ok ⟨imgs, lbls, pts, polys, shps, processTable acc.table g.tableStore⟩

/-- The traversal loop of `read_zarr` over the top-level groups, threading
the accumulated `SpatialData` state; the first exception aborts the read. -/
def readGroups {α : Type} (acc : SpatialData α) :
    List (TopGroup α) → Except String (SpatialData α)
  | [] => .ok acc
  | g :: gs =>
    match readGroup acc g with
    | .error e => .error e
    | .ok next => readGroups next gs

/-- The empty accumulation state of `read_zarr`. -/
def emptySpatialData (α : Type) : SpatialData α :=
  ⟨[], [], [], [], [], none⟩

/-- Shallow embedding of `read_zarr`: fold the loop body over the
enumerated top-level groups starting from empty accumulators, and return
the assembled `SpatialData`. -/
def read_zarr {α : Type} (groups : List (TopGroup α)) : Except String (SpatialData α) :=
  readGroups (emptySpatialData α) groups

/-- Modelled from the spec: the "last-processed-wins" table, the table
declared by the last top-level group that declares one. -/
def lastDeclaredTable {α : Type} : List (TopGroup α) → Option AnnData
  | [] => none
  | g :: gs =>
    match lastDeclaredTable gs with
    | some t => some t
    | none => g.tableStore

/-! ## Lemmas about transformation parsing and pyramid building -/

lemma parseTransforms_ok (l : List (List TransformDesc)) (h : ∀ t ∈ l, t ≠ []) :
    parseTransforms l = .ok (l.map parsedTransform) := by
  induction l with
  | nil => rfl
  | cons t rest ih =>
    have ht : t ≠ [] := h t (List.mem_cons_self _ _)
    match t, ht with
    | d :: t', _ =>
      have hrest := ih (fun x hx => h x (List.mem_cons_of_mem _ hx))
      simp [parseTransforms, hrest, parsedTransform]

lemma buildPyramid_length {α : Type} (node : MSNode α) :
    ∀ (ts : List BaseTransformation) (ds : List String) (i : Nat),
      (buildPyramid node ts ds i).length = min ts.length ds.length := by
  intro ts
  induction ts with
  | nil => intro ds i; simp [buildPyramid]
  | cons t ts ih =>
    intro ds i
    cases ds with
    | nil => simp [buildPyramid]
    | cons d ds =>
      simp only [buildPyramid, List.length_cons, ih]
      omega

lemma buildPyramid_get {α : Type} (node : MSNode α) :
    ∀ (ts : List BaseTransformation) (ds : List String) (i j : Nat)
      (h : j < (buildPyramid node ts ds i).length)
      (ht : j < ts.length) (hd : j < ds.length),
      (buildPyramid node ts ds i).get ⟨j, h⟩ =
        (scaleKey (i + j), mkLevel node (ts.get ⟨j, ht⟩) (ds.get ⟨j, hd⟩)) := by
  intro ts
  induction ts with
  | nil => intro ds i j h ht hd; exact absurd ht (by simp)
  | cons t ts ih =>
    intro ds i j h ht hd
    cases ds with
    | nil => exact absurd hd (by simp)
    | cons d ds =>
      cases j with
      | zero => simp [buildPyramid]
      | succ j =>
        have h' : j < (buildPyramid node ts ds (i + 1)).length := by
          simpa [buildPyramid] using h
        have hrec := ih ds (i + 1) j h' (by simpa using ht) (by simpa using hd)
        simp only [buildPyramid, List.get_cons_succ, hrec]
        congr 2
        omega

/-! ## C1: transformation count vs. dataset count -/

/-- C1 (amended): for every multiscale node whose transformation
descriptions all parse, if the parsed-transformation count equals the
declared-dataset count and at least one dataset is declared, then
`_read_multiscale` succeeds and the produced element has exactly one level
per dataset; if the counts differ, it fails fatally with the assertion
message "Expecting one transformation per dataset.". -/
theorem multiscale_assembly_count (n : MSNode Nat)
    (hne : ∀ t ∈ n.coordinateTransformations, t ≠ []) :
    (n.coordinateTransformations.length = n.datasets.length → n.datasets ≠ [] →
      ∃ e, _read_multiscale n = .ok e ∧ numLevels e = n.datasets.length) ∧
    (n.coordinateTransformations.length ≠ n.datasets.length →
      _read_multiscale n = .error "Expecting one transformation per dataset.") := by
  have hp := parseTransforms_ok n.coordinateTransformations hne
  constructor
  · intro heq hds
    by_cases hgt : 1 < n.datasets.length
    · refine ⟨.multiscale (buildPyramid n (n.coordinateTransformations.map parsedTransform)
        n.datasets 0), ?_, ?_⟩
      · simp [_read_multiscale, hp, heq, hgt]
      · simp [numLevels, buildPyramid_length, heq]
    · have h1 : n.datasets.length = 1 := by
        have hpos : 0 < n.datasets.length := List.length_pos.mpr hds
        omega
      obtain ⟨d, hd⟩ := List.length_eq_one.mp h1
      obtain ⟨ct, hct⟩ := List.length_eq_one.mp (heq.trans h1)
      have hctne : ct ≠ [] := hne ct (by rw [hct]; exact List.mem_cons_self _ _)
      obtain ⟨c0, ct', rfl⟩ : ∃ c0 ct', ct = c0 :: ct' := by
        rcases ct with _ | ⟨a, b⟩
        · exact absurd rfl hctne
        · exact ⟨a, b, rfl⟩
      refine ⟨.single (mkLevel n (get_transformation_from_dict c0) d), ?_, by simp [numLevels, h1]⟩
      simp [_read_multiscale, hct, hd, parseTransforms]
  · intro hneq
    simp [_read_multiscale, hp, hneq]

/-- Concrete two-level multiscale node used by witnesses. -/
def witnessNode2 : MSNode Nat :=
  { datasets := ["0", "1"],
    coordinateTransformations := [[⟨[("type", "scale")]⟩], [⟨[("type", "translate")]⟩]],
    name := "image", axes := ["c", "y", "x"], array := fun _ => 7 }

/-- Concrete single-level multiscale node used by witnesses. -/
def witnessNode1 : MSNode Nat :=
  { datasets := ["0"],
    coordinateTransformations := [[⟨[("type", "scale")]⟩]],
    name := "image", axes := ["y", "x"], array := fun _ => 3 }

/-- Concrete multiscale node declaring zero datasets and zero
transformations: the counts agree, yet assembly fails. -/
def emptyMSNode : MSNode Nat :=
  { datasets := [], coordinateTransformations := [], name := "", axes := [], array := fun _ => 0 }

theorem multiscale_assembly_count_witness :
    (witnessNode2.coordinateTransformations.length = witnessNode2.datasets.length →
      witnessNode2.datasets ≠ [] →
      ∃ e, _read_multiscale witnessNode2 = .ok e ∧ numLevels e = witnessNode2.datasets.length) ∧
    (witnessNode2.coordinateTransformations.length ≠ witnessNode2.datasets.length →
      _read_multiscale witnessNode2 = .error "Expecting one transformation per dataset.") :=
  multiscale_assembly_count witnessNode2 (by decide)

/-- C1 (counterexample to the claim as stated): on the node declaring zero
resolution datasets and zero transformation descriptions the two counts
are equal, yet `_read_multiscale` does not succeed — it raises
`IndexError` on `transformations[0]`. -/
theorem multiscale_assembly_count_cex :
    emptyMSNode.coordinateTransformations.length = emptyMSNode.datasets.length ∧
    _read_multiscale emptyMSNode = .error "list index out of range" ∧
    ∀ e : Element Nat, _read_multiscale emptyMSNode ≠ .ok e := by
  refine ⟨rfl, rfl, fun e h => ?_⟩
  exact Except.noConfusion h

/-! ## C3: bare single-level element vs. keyed pyramid -/

/-- C3: for a multiscale node with exactly one declared resolution dataset,
`_read_multiscale` returns a bare single-level element (never a pyramid
wrapper, so no "scale0" key exists); with more than one dataset it returns
a pyramid whose levels are keyed "scale0", "scale1", ... in declared
resolution order (index 0 first), level `j` carrying the array of dataset
`j` and its own transformation parsed from entry `j`. -/
theorem read_multiscale_pyramid_shape (n : MSNode Nat)
    (hne : ∀ t ∈ n.coordinateTransformations, t ≠ [])
    (hlen : n.coordinateTransformations.length = n.datasets.length) :
    (n.datasets.length = 1 →
      ∃ lv, _read_multiscale n = .ok (.single lv) ∧
        ∀ lvls, _read_multiscale n ≠ .ok (.multiscale lvls)) ∧
    (1 < n.datasets.length →
      ∃ lvls, _read_multiscale n = .ok (.multiscale lvls) ∧
        lvls.length = n.datasets.length ∧
        ∀ j (h1 : j < lvls.length) (h2 : j < n.datasets.length)
          (h3 : j < n.coordinateTransformations.length),
          lvls.get ⟨j, h1⟩ = ("scale" ++ toString j,
            { data := n.array (n.datasets.get ⟨j, h2⟩),
              name := n.name, dims := n.axes,
              transform := parsedTransform (n.coordinateTransformations.get ⟨j, h3⟩) })) := by
  have hp := parseTransforms_ok n.coordinateTransformations hne
  constructor
  · intro h1
    obtain ⟨d, hd⟩ := List.length_eq_one.mp h1
    obtain ⟨ct, hct⟩ := List.length_eq_one.mp (hlen.trans h1)
    have hctne : ct ≠ [] := hne ct (by rw [hct]; exact List.mem_cons_self _ _)
    obtain ⟨c0, ct', rfl⟩ : ∃ c0 ct', ct = c0 :: ct' := by
      rcases ct with _ | ⟨a, b⟩
      · exact absurd rfl hctne
      · exact ⟨a, b, rfl⟩
    have hres : _read_multiscale n = .ok (.single (mkLevel n (get_transformation_from_dict c0) d)) := by
      simp [_read_multiscale, hct, hd, parseTransforms]
    exact ⟨mkLevel n (get_transformation_from_dict c0) d, hres, fun lvls hcontra => by
      rw [hres] at hcontra
      simp at hcontra⟩
  · intro h2
    refine ⟨buildPyramid n (n.coordinateTransformations.map parsedTransform) n.datasets 0,
      ?_, ?_, ?_⟩
    · simp [_read_multiscale, hp, hlen, h2]
    · simp [buildPyramid_length, hlen]
    · intro j hj1 hj2 hj3
      have hmap : j < (n.coordinateTransformations.map parsedTransform).length := by
        simpa using hj3
      rw [buildPyramid_get n (n.coordinateTransformations.map parsedTransform) n.datasets 0 j
        hj1 hmap hj2]
      simp only [Nat.zero_add, scaleKey, mkLevel]
      congr 1
      simp [List.get_eq_getElem]

theorem read_multiscale_pyramid_shape_witness :
    ((witnessNode2.datasets.length = 1 →
      ∃ lv, _read_multiscale witnessNode2 = .ok (.single lv) ∧
        ∀ lvls, _read_multiscale witnessNode2 ≠ .ok (.multiscale lvls)) ∧
    (1 < witnessNode2.datasets.length →
      ∃ lvls, _read_multiscale witnessNode2 = .ok (.multiscale lvls) ∧
        lvls.length = witnessNode2.datasets.length ∧
        ∀ j (h1 : j < lvls.length) (h2 : j < witnessNode2.datasets.length)
          (h3 : j < witnessNode2.coordinateTransformations.length),
          lvls.get ⟨j, h1⟩ = ("scale" ++ toString j,
            { data := witnessNode2.array (witnessNode2.datasets.get ⟨j, h2⟩),
              name := witnessNode2.name, dims := witnessNode2.axes,
              transform := parsedTransform
                (witnessNode2.coordinateTransformations.get ⟨j, h3⟩) }))) :=
  read_multiscale_pyramid_shape witnessNode2 (by decide) (by decide)

/-! ## Lemmas about the attribute mapping operations -/

lemma alookup_isSome_eq_hasKey (a : List (String × AVal)) (k : String) :
    (alookup a k).isSome = hasKey a k := by
  induction a with
  | nil => rfl
  | cons p rest ih =>
    by_cases h : p.1 = k
    · simp [alookup, hasKey, h]
    · simp [alookup, hasKey, h] at ih ⊢
      exact ih

lemma alookup_append (a b : List (String × AVal)) (k : String) :
    alookup (a ++ b) k =
      match alookup a k with
      | some v => some v
      | none => alookup b k := by
  induction a with
  | nil => rfl
  | cons p rest ih =>
    by_cases h : p.1 = k <;> simp [alookup, h, ih]

lemma hasKey_append (a b : List (String × AVal)) (k : String) :
    hasKey (a ++ b) k = (hasKey a k || hasKey b k) := by
  simp [hasKey, List.any_append]

lemma hasKey_setdefaultNone_self (a : List (String × AVal)) (k : String) :
    hasKey (setdefaultNone a k) k = true := by
  unfold setdefaultNone
  by_cases h : hasKey a k = true
  · rw [if_pos h]; exact h
  · rw [if_neg h, hasKey_append]
    simp [hasKey]

lemma setdefaultNone_of_hasKey (a : List (String × AVal)) (k : String)
    (h : hasKey a k = true) : setdefaultNone a k = a := by
  simp [setdefaultNone, h]

lemma hasKey_setdefaultNone_ne (a : List (String × AVal)) (k k' : String)
    (h : k' ≠ k) : hasKey (setdefaultNone a k) k' = hasKey a k' := by
  unfold setdefaultNone
  by_cases hk : hasKey a k = true
  · rw [if_pos hk]
  · rw [if_neg hk, hasKey_append]
    simp [hasKey, Ne.symm h]

lemma alookup_setdefaultNone_ne (a : List (String × AVal)) (k k' : String)
    (h : k' ≠ k) : alookup (setdefaultNone a k) k' = alookup a k' := by
  unfold setdefaultNone
  by_cases hk : hasKey a k = true
  · rw [if_pos hk]
  · rw [if_neg hk, alookup_append]
    cases hl : alookup a k' with
    | some v => rfl
    | none => simp [alookup, Ne.symm h]

lemma alookup_setdefaultNone_self_absent (a : List (String × AVal)) (k : String)
    (h : hasKey a k = false) : alookup (setdefaultNone a k) k = some .vnone := by
  have hl : alookup a k = none := by
    have hs := alookup_isSome_eq_hasKey a k
    rw [h] at hs
    exact Option.not_isSome_iff_eq_none.mp (by simp [hs])
  rw [setdefaultNone, if_neg (by simp [h]), alookup_append, hl]
  simp [alookup]

lemma updateVal_cons (p : String × AVal) (rest : List (String × AVal)) (k : String) (v : AVal) :
    updateVal (p :: rest) k v = (if p.1 = k then (p.1, v) else p) :: updateVal rest k v := by
  simp [updateVal]

lemma hasKey_updateVal (a : List (String × AVal)) (k : String) (v : AVal) (k' : String) :
    hasKey (updateVal a k v) k' = hasKey a k' := by
  induction a with
  | nil => rfl
  | cons p rest ih =>
    rw [updateVal_cons]
    by_cases hp : p.1 = k
    · rw [if_pos hp]
      simp only [hasKey, List.any_cons] at ih ⊢
      rw [ih]
    · rw [if_neg hp]
      simp only [hasKey, List.any_cons] at ih ⊢
      rw [ih]

lemma alookup_updateVal_self (a : List (String × AVal)) (k : String) (v : AVal)
    (h : hasKey a k = true) : alookup (updateVal a k v) k = some v := by
  induction a with
  | nil => simp [hasKey] at h
  | cons p rest ih =>
    rw [updateVal_cons]
    by_cases hp : p.1 = k
    · rw [if_pos hp]
      simp [alookup, hp]
    · rw [if_neg hp]
      have h' : hasKey rest k = true := by
        simpa [hasKey, List.any_cons, hp] using h
      simp only [alookup, if_neg hp]
      exact ih h'

lemma alookup_updateVal_ne (a : List (String × AVal)) (k k' : String) (v : AVal)
    (h : k' ≠ k) : alookup (updateVal a k v) k' = alookup a k' := by
  induction a with
  | nil => rfl
  | cons p rest ih =>
    rw [updateVal_cons]
    by_cases hp : p.1 = k
    · rw [if_pos hp]
      have hne : ¬(p.1 = k') := by rw [hp]; exact fun hh => h hh.symm
      simp only [alookup, if_neg hne]
      exact ih
    · rw [if_neg hp]
      by_cases hp' : p.1 = k'
      · simp only [alookup, if_pos hp']
      · simp only [alookup, if_neg hp']
        exact ih

/-! ## Lemmas about the attribute fix -/

lemma defaultedAttrs_hasKey (a : List (String × AVal)) :
    hasKey (defaultedAttrs a) "region" = true ∧
    hasKey (defaultedAttrs a) "region_key" = true ∧
    hasKey (defaultedAttrs a) "instance_key" = true := by
  unfold defaultedAttrs
  refine ⟨?_, ?_, hasKey_setdefaultNone_self _ _⟩
  · rw [hasKey_setdefaultNone_ne _ _ _ (by decide), hasKey_setdefaultNone_ne _ _ _ (by decide)]
    exact hasKey_setdefaultNone_self _ _
  · rw [hasKey_setdefaultNone_ne _ _ _ (by decide)]
    exact hasKey_setdefaultNone_self _ _

lemma alookup_defaultedAttrs_region_absent (a : List (String × AVal))
    (h : hasKey a "region" = false) :
    alookup (defaultedAttrs a) "region" = some .vnone := by
  unfold defaultedAttrs
  rw [alookup_setdefaultNone_ne _ _ _ (by decide), alookup_setdefaultNone_ne _ _ _ (by decide)]
  exact alookup_setdefaultNone_self_absent a "region" h

lemma alookup_defaultedAttrs_region_present (a : List (String × AVal)) (v : AVal)
    (h : alookup a "region" = some v) :
    alookup (defaultedAttrs a) "region" = some v := by
  have hk : hasKey a "region" = true := by
    rw [← alookup_isSome_eq_hasKey, h]
    rfl
  unfold defaultedAttrs
  rw [alookup_setdefaultNone_ne _ _ _ (by decide), alookup_setdefaultNone_ne _ _ _ (by decide),
    setdefaultNone_of_hasKey a "region" hk]
  exact h

lemma alookup_defaultedAttrs_region_key_absent (a : List (String × AVal))
    (h : hasKey a "region_key" = false) :
    alookup (defaultedAttrs a) "region_key" = some .vnone := by
  unfold defaultedAttrs
  rw [alookup_setdefaultNone_ne _ _ _ (by decide)]
  exact alookup_setdefaultNone_self_absent _ "region_key"
    (by rw [hasKey_setdefaultNone_ne _ _ _ (by decide)]; exact h)

lemma alookup_defaultedAttrs_instance_key_absent (a : List (String × AVal))
    (h : hasKey a "instance_key" = false) :
    alookup (defaultedAttrs a) "instance_key" = some .vnone := by
  unfold defaultedAttrs
  exact alookup_setdefaultNone_self_absent _ "instance_key"
    (by rw [hasKey_setdefaultNone_ne _ _ _ (by decide), hasKey_setdefaultNone_ne _ _ _ (by decide)]
        exact h)

lemma alookup_defaultedAttrs_ne (a : List (String × AVal)) (k : String)
    (h1 : k ≠ "region") (h2 : k ≠ "region_key") (h3 : k ≠ "instance_key") :
    alookup (defaultedAttrs a) k = alookup a k := by
  unfold defaultedAttrs
  rw [alookup_setdefaultNone_ne _ _ _ h3, alookup_setdefaultNone_ne _ _ _ h2,
    alookup_setdefaultNone_ne _ _ _ h1]

lemma fixTableAttrs_hasKey (a : List (String × AVal)) :
    hasKey (fixTableAttrs a) "region" = true ∧
    hasKey (fixTableAttrs a) "region_key" = true ∧
    hasKey (fixTableAttrs a) "instance_key" = true := by
  obtain ⟨h1, h2, h3⟩ := defaultedAttrs_hasKey a
  unfold fixTableAttrs
  cases hr : alookup (defaultedAttrs a) "region" with
  | none => exact ⟨h1, h2, h3⟩
  | some v =>
    cases v with
    | vndarray xs =>
      refine ⟨?_, ?_, ?_⟩ <;> rw [hasKey_updateVal] <;> assumption
    | vnone => exact ⟨h1, h2, h3⟩
    | vstr s => exact ⟨h1, h2, h3⟩
    | vint n => exact ⟨h1, h2, h3⟩
    | vlist xs => exact ⟨h1, h2, h3⟩

lemma alookup_fixTableAttrs_ne (a : List (String × AVal)) (k : String)
    (h1 : k ≠ "region") (h2 : k ≠ "region_key") (h3 : k ≠ "instance_key") :
    alookup (fixTableAttrs a) k = alookup a k := by
  unfold fixTableAttrs
  cases hr : alookup (defaultedAttrs a) "region" with
  | none => exact alookup_defaultedAttrs_ne a k h1 h2 h3
  | some v =>
    cases v with
    | vndarray xs =>
      rw [alookup_updateVal_ne _ _ _ _ h1]
      exact alookup_defaultedAttrs_ne a k h1 h2 h3
    | vnone => exact alookup_defaultedAttrs_ne a k h1 h2 h3
    | vstr s => exact alookup_defaultedAttrs_ne a k h1 h2 h3
    | vint n => exact alookup_defaultedAttrs_ne a k h1 h2 h3
    | vlist xs => exact alookup_defaultedAttrs_ne a k h1 h2 h3

lemma alookup_fixTableAttrs_region_absent (a : List (String × AVal))
    (h : hasKey a "region" = false) :
    alookup (fixTableAttrs a) "region" = some .vnone := by
  have hr := alookup_defaultedAttrs_region_absent a h
  unfold fixTableAttrs
  rw [hr]
  exact hr

lemma alookup_fixTableAttrs_region_key_absent (a : List (String × AVal))
    (h : hasKey a "region_key" = false) :
    alookup (fixTableAttrs a) "region_key" = some .vnone := by
  have hd := alookup_defaultedAttrs_region_key_absent a h
  unfold fixTableAttrs
  cases hr : alookup (defaultedAttrs a) "region" with
  | none => exact hd
  | some v =>
    cases v with
    | vndarray xs => rw [alookup_updateVal_ne _ _ _ _ (by decide)]; exact hd
    | vnone => exact hd
    | vstr s => exact hd
    | vint n => exact hd
    | vlist xs => exact hd

lemma alookup_fixTableAttrs_instance_key_absent (a : List (String × AVal))
    (h : hasKey a "instance_key" = false) :
    alookup (fixTableAttrs a) "instance_key" = some .vnone := by
  have hd := alookup_defaultedAttrs_instance_key_absent a h
  unfold fixTableAttrs
  cases hr : alookup (defaultedAttrs a) "region" with
  | none => exact hd
  | some v =>
    cases v with
    | vndarray xs => rw [alookup_updateVal_ne _ _ _ _ (by decide)]; exact hd
    | vnone => exact hd
    | vstr s => exact hd
    | vint n => exact hd
    | vlist xs => exact hd

lemma alookup_fixTableAttrs_region_ndarray (a : List (String × AVal)) (xs : List Int)
    (h : alookup a "region" = some (.vndarray xs)) :
    alookup (fixTableAttrs a) "region" = some (.vlist xs) := by
  have hd := alookup_defaultedAttrs_region_present a _ h
  unfold fixTableAttrs
  rw [hd]
  exact alookup_updateVal_self _ _ _ (by rw [← alookup_isSome_eq_hasKey, hd]; rfl)

lemma alookup_fixTableAttrs_region_list (a : List (String × AVal)) (xs : List Int)
    (h : alookup a "region" = some (.vlist xs)) :
    alookup (fixTableAttrs a) "region" = some (.vlist xs) := by
  have hd := alookup_defaultedAttrs_region_present a _ h
  unfold fixTableAttrs
  rw [hd]
  exact hd

lemma alookup_fixTableAttrs_region_not_ndarray (a : List (String × AVal)) (xs : List Int) :
    alookup (fixTableAttrs a) "region" ≠ some (.vndarray xs) := by
  unfold fixTableAttrs
  cases hr : alookup (defaultedAttrs a) "region" with
  | none => rw [hr]; exact fun hh => Option.noConfusion hh
  | some v =>
    cases v with
    | vndarray ys =>
      rw [alookup_updateVal_self _ _ _ (by rw [← alookup_isSome_eq_hasKey, hr]; rfl)]
      exact fun hh => AVal.noConfusion (Option.some.inj hh)
    | vnone => rw [hr]; exact fun hh => AVal.noConfusion (Option.some.inj hh)
    | vstr s => rw [hr]; exact fun hh => AVal.noConfusion (Option.some.inj hh)
    | vint n => rw [hr]; exact fun hh => AVal.noConfusion (Option.some.inj hh)
    | vlist ys => rw [hr]; exact fun hh => AVal.noConfusion (Option.some.inj hh)

lemma fixTableAttrs_fixpoint (b : List (String × AVal))
    (hdef : defaultedAttrs b = b)
    (hnd : ∀ xs, alookup b "region" ≠ some (.vndarray xs)) :
    fixTableAttrs b = b := by
  unfold fixTableAttrs
  rw [hdef]
  cases hr : alookup b "region" with
  | none => rfl
  | some v =>
    cases v with
    | vndarray xs => exact absurd hr (hnd xs)
    | vnone => rfl
    | vstr s => rfl
    | vint n => rfl
    | vlist xs => rfl

lemma fixTableAttrs_idem (a : List (String × AVal)) :
    fixTableAttrs (fixTableAttrs a) = fixTableAttrs a := by
  obtain ⟨h1, h2, h3⟩ := fixTableAttrs_hasKey a
  refine fixTableAttrs_fixpoint _ ?_ (fun xs => alookup_fixTableAttrs_region_not_ndarray a xs)
  unfold defaultedAttrs
  rw [setdefaultNone_of_hasKey _ _ h1, setdefaultNone_of_hasKey _ _ h2,
    setdefaultNone_of_hasKey _ _ h3]

lemma normalizeTable_idem (t : AnnData) :
    normalizeTable (normalizeTable t) = normalizeTable t := by
  cases h : t.unsAttrs with
  | none => simp [normalizeTable, h]
  | some a => simp [normalizeTable, h, fixTableAttrs_idem]

/-! ## C6: completion of the attribute-group keys -/

/-- C6: when a loaded table's metadata block contains the attribute-group
key, normalization leaves all three of `region`, `region_key` and
`instance_key` present afterward, inserting `None` for each one that was
missing (partial presence is completed, not rejected); when the
attribute-group key is absent, the table is returned entirely untouched. -/
theorem table_attrs_completion (t : AnnData) (a : List (String × AVal)) :
    (t.unsAttrs = some a →
      (normalizeTable t).unsAttrs = some (fixTableAttrs a) ∧
      hasKey (fixTableAttrs a) "region" = true ∧
      hasKey (fixTableAttrs a) "region_key" = true ∧
      hasKey (fixTableAttrs a) "instance_key" = true ∧
      (hasKey a "region" = false → alookup (fixTableAttrs a) "region" = some .vnone) ∧
      (hasKey a "region_key" = false → alookup (fixTableAttrs a) "region_key" = some .vnone) ∧
      (hasKey a "instance_key" = false →
        alookup (fixTableAttrs a) "instance_key" = some .vnone)) ∧
    (t.unsAttrs = none → normalizeTable t = t) := by
  constructor
  · intro h
    obtain ⟨h1, h2, h3⟩ := fixTableAttrs_hasKey a
    exact ⟨by simp [normalizeTable, h], h1, h2, h3,
      alookup_fixTableAttrs_region_absent a,
      alookup_fixTableAttrs_region_key_absent a,
      alookup_fixTableAttrs_instance_key_absent a⟩
  · intro h
    simp [normalizeTable, h]

/-- Concrete table whose attribute block has only `region_key` set
(end-to-end scenario C of the spec). -/
def witnessTable1 : AnnData :=
  { unsAttrs := some [("region_key", .vstr "rk")], unsOther := [("note", "x")],
    xdata := [[1, 2]] }

/-- Concrete table whose attribute block stores `region` as an array-like
value next to an unrelated key. -/
def witnessTable2 : AnnData :=
  { unsAttrs := some [("region", .vndarray [1, 2]), ("extra", .vint 5)], unsOther := [],
    xdata := [[9]] }

/-- Concrete table whose attribute block stores `region` as a plain list. -/
def witnessTable3 : AnnData :=
  { unsAttrs := some [("region", .vlist [4, 5])], unsOther := [], xdata := [] }

theorem table_attrs_completion_witness :
    (witnessTable1.unsAttrs = some [("region_key", AVal.vstr "rk")] →
      (normalizeTable witnessTable1).unsAttrs =
        some (fixTableAttrs [("region_key", AVal.vstr "rk")]) ∧
      hasKey (fixTableAttrs [("region_key", AVal.vstr "rk")]) "region" = true ∧
      hasKey (fixTableAttrs [("region_key", AVal.vstr "rk")]) "region_key" = true ∧
      hasKey (fixTableAttrs [("region_key", AVal.vstr "rk")]) "instance_key" = true ∧
      (hasKey [("region_key", AVal.vstr "rk")] "region" = false →
        alookup (fixTableAttrs [("region_key", AVal.vstr "rk")]) "region" = some .vnone) ∧
      (hasKey [("region_key", AVal.vstr "rk")] "region_key" = false →
        alookup (fixTableAttrs [("region_key", AVal.vstr "rk")]) "region_key" = some .vnone) ∧
      (hasKey [("region_key", AVal.vstr "rk")] "instance_key" = false →
        alookup (fixTableAttrs [("region_key", AVal.vstr "rk")]) "instance_key" =
          some .vnone)) ∧
    (witnessTable1.unsAttrs = none → normalizeTable witnessTable1 = witnessTable1) :=
  table_attrs_completion witnessTable1 [("region_key", AVal.vstr "rk")]

/-! ## C7: idempotence and region re-encoding -/

/-- C7: the attribute normalization is idempotent — applying it twice to
any table equals applying it once — and it converts a `region` encoded as
a homogeneous array-like value into a plain ordered list while leaving a
`region` already given as a plain list unchanged. -/
theorem attrs_normalization_idem (t : AnnData) (a : List (String × AVal)) (xs : List Int) :
    normalizeTable (normalizeTable t) = normalizeTable t ∧
    (t.unsAttrs = some a → alookup a "region" = some (.vndarray xs) →
      (normalizeTable t).unsAttrs = some (fixTableAttrs a) ∧
      alookup (fixTableAttrs a) "region" = some (.vlist xs)) ∧
    (t.unsAttrs = some a → alookup a "region" = some (.vlist xs) →
      (normalizeTable t).unsAttrs = some (fixTableAttrs a) ∧
      alookup (fixTableAttrs a) "region" = some (.vlist xs)) := by
  refine ⟨normalizeTable_idem t, ?_, ?_⟩
  · intro h hr
    exact ⟨by simp [normalizeTable, h], alookup_fixTableAttrs_region_ndarray a xs hr⟩
  · intro h hr
    exact ⟨by simp [normalizeTable, h], alookup_fixTableAttrs_region_list a xs hr⟩

theorem attrs_normalization_idem_witness :
    normalizeTable (normalizeTable witnessTable2) = normalizeTable witnessTable2 ∧
    (witnessTable2.unsAttrs = some [("region", AVal.vndarray [1, 2]), ("extra", AVal.vint 5)] →
      alookup [("region", AVal.vndarray [1, 2]), ("extra", AVal.vint 5)] "region" =
        some (.vndarray [1, 2]) →
      (normalizeTable witnessTable2).unsAttrs =
        some (fixTableAttrs [("region", AVal.vndarray [1, 2]), ("extra", AVal.vint 5)]) ∧
      alookup (fixTableAttrs [("region", AVal.vndarray [1, 2]), ("extra", AVal.vint 5)])
        "region" = some (.vlist [1, 2])) ∧
    (witnessTable2.unsAttrs = some [("region", AVal.vndarray [1, 2]), ("extra", AVal.vint 5)] →
      alookup [("region", AVal.vndarray [1, 2]), ("extra", AVal.vint 5)] "region" =
        some (.vlist [1, 2]) →
      (normalizeTable witnessTable2).unsAttrs =
        some (fixTableAttrs [("region", AVal.vndarray [1, 2]), ("extra", AVal.vint 5)]) ∧
      alookup (fixTableAttrs [("region", AVal.vndarray [1, 2]), ("extra", AVal.vint 5)])
        "region" = some (.vlist [1, 2])) :=
  attrs_normalization_idem witnessTable2
    [("region", AVal.vndarray [1, 2]), ("extra", AVal.vint 5)] [1, 2]

/-! ## C10: frame property of the normalization -/

/-- C10 (implicit frame property): when the attribute-group key is
present, normalization modifies at most the keys `region`, `region_key`
and `instance_key` inside the attribute-group block; every other key of
that block, every other metadata entry, and the table's row data are left
unchanged. -/
theorem attrs_normalization_frame (t : AnnData) (a : List (String × AVal)) (k : String)
    (h : t.unsAttrs = some a)
    (h1 : k ≠ "region") (h2 : k ≠ "region_key") (h3 : k ≠ "instance_key") :
    (normalizeTable t).unsOther = t.unsOther ∧
    (normalizeTable t).xdata = t.xdata ∧
    (normalizeTable t).unsAttrs = some (fixTableAttrs a) ∧
    alookup (fixTableAttrs a) k = alookup a k :=
  ⟨by simp [normalizeTable, h], by simp [normalizeTable, h], by simp [normalizeTable, h],
    alookup_fixTableAttrs_ne a k h1 h2 h3⟩

theorem attrs_normalization_frame_witness :
    (normalizeTable witnessTable2).unsOther = witnessTable2.unsOther ∧
    (normalizeTable witnessTable2).xdata = witnessTable2.xdata ∧
    (normalizeTable witnessTable2).unsAttrs =
      some (fixTableAttrs [("region", AVal.vndarray [1, 2]), ("extra", AVal.vint 5)]) ∧
    alookup (fixTableAttrs [("region", AVal.vndarray [1, 2]), ("extra", AVal.vint 5)])
      "extra" = alookup [("region", AVal.vndarray [1, 2]), ("extra", AVal.vint 5)] "extra" :=
  attrs_normalization_frame witnessTable2
    [("region", AVal.vndarray [1, 2]), ("extra", AVal.vint 5)] "extra" rfl
    (by decide) (by decide) (by decide)

/-! ## C2: node classification -/

lemma all_not_label (specs : List SpecKind) :
    specs.all (fun s => !isLabelSpec s) = !(specs.any isLabelSpec) := by
  induction specs with
  | nil => rfl
  | cons s rest ih => simp [List.all_cons, List.any_cons, Bool.not_or, ih]

/-- C2: a node declaring a multiscale-pyramid marker and no label marker
passes the image predicate only and is added to the images mapping by the
image loop (and skipped by the label loop); a node declaring both markers
passes the label predicate only and is added to the labels mapping by the
label loop (and skipped by the image loop); a node with no pyramid marker
(hence also one with only a label marker) passes neither predicate and is
silently skipped by both loops. -/
theorem node_classification (k : String) (imgs lbls : List (String × Element Nat))
    (n : ZNodeData Nat) (e : Element Nat)
    (hread : _read_multiscale n.node = .ok e) :
    (n.specs.any isMultiscalesSpec = true → n.specs.any isLabelSpec = false →
      isImageNode n.specs = true ∧ isLabelNode n.specs = false ∧
      processImageNodes imgs k [n] = .ok (dictInsert imgs k e) ∧
      processLabelNodes lbls k [n] = .ok lbls) ∧
    (n.specs.any isMultiscalesSpec = true → n.specs.any isLabelSpec = true →
      isImageNode n.specs = false ∧ isLabelNode n.specs = true ∧
      processImageNodes imgs k [n] = .ok imgs ∧
      processLabelNodes lbls k [n] = .ok (dictInsert lbls k e)) ∧
    (n.specs.any isMultiscalesSpec = false →
      isImageNode n.specs = false ∧ isLabelNode n.specs = false ∧
      processImageNodes imgs k [n] = .ok imgs ∧
      processLabelNodes lbls k [n] = .ok lbls) := by
  refine ⟨?_, ?_, ?_⟩
  · intro hm hl
    have hi : isImageNode n.specs = true := by
      simp [isImageNode, hm, all_not_label, hl]
    have hlab : isLabelNode n.specs = false := by
      simp [isLabelNode, hl]
    exact ⟨hi, hlab, by simp [processImageNodes, hi, hread],
      by simp [processLabelNodes, hlab]⟩
  · intro hm hl
    have hi : isImageNode n.specs = false := by
      simp [isImageNode, all_not_label, hl]
    have hlab : isLabelNode n.specs = true := by
      simp [isLabelNode, hm, hl]
    exact ⟨hi, hlab, by simp [processImageNodes, hi],
      by simp [processLabelNodes, hlab, hread]⟩
  · intro hm
    have hi : isImageNode n.specs = false := by
      simp [isImageNode, hm]
    have hlab : isLabelNode n.specs = false := by
      simp [isLabelNode, hm]
    exact ⟨hi, hlab, by simp [processImageNodes, hi],
      by simp [processLabelNodes, hlab]⟩

/-- Concrete node declaring only the multiscale-pyramid marker. -/
def witnessZNodeImage : ZNodeData Nat := ⟨[.multiscales], witnessNode1⟩

/-- The element assembled from `witnessNode1`. -/
def witnessElem1 : Element Nat :=
  .single ⟨3, "image", ["y", "x"], ⟨⟨[("type", "scale")]⟩⟩⟩

theorem node_classification_witness :
    (witnessZNodeImage.specs.any isMultiscalesSpec = true →
      witnessZNodeImage.specs.any isLabelSpec = false →
      isImageNode witnessZNodeImage.specs = true ∧
      isLabelNode witnessZNodeImage.specs = false ∧
      processImageNodes [] "g0" [witnessZNodeImage] = .ok (dictInsert [] "g0" witnessElem1) ∧
      processLabelNodes [] "g0" [witnessZNodeImage] = .ok []) ∧
    (witnessZNodeImage.specs.any isMultiscalesSpec = true →
      witnessZNodeImage.specs.any isLabelSpec = true →
      isImageNode witnessZNodeImage.specs = false ∧
      isLabelNode witnessZNodeImage.specs = true ∧
      processImageNodes [] "g0" [witnessZNodeImage] = .ok [] ∧
      processLabelNodes [] "g0" [witnessZNodeImage] = .ok (dictInsert [] "g0" witnessElem1)) ∧
    (witnessZNodeImage.specs.any isMultiscalesSpec = false →
      isImageNode witnessZNodeImage.specs = false ∧
      isLabelNode witnessZNodeImage.specs = false ∧
      processImageNodes [] "g0" [witnessZNodeImage] = .ok [] ∧
      processLabelNodes [] "g0" [witnessZNodeImage] = .ok []) :=
  node_classification "g0" [] [] witnessZNodeImage witnessElem1 rfl

/-! ## C4 and C5: the polygon decoder -/

lemma read_polygons_mismatch (f : PolygonStore) (name : String)
    (hcode : geometryTypeName f.geometry_type = some name)
    (hoff : f.offsets.length % 2 = 0)
    (hname : name ≠ f.geometry_name) :
    _read_polygons f = .error "AssertionError" := by
  simp [_read_polygons, npSplit2, hoff, hcode, hname]

lemma read_polygons_ok (f : PolygonStore) (name : String) (ct : TransformDesc)
    (hcode : geometryTypeName f.geometry_type = some name)
    (hoff : f.offsets.length % 2 = 0)
    (hname : name = f.geometry_name)
    (hct : firstCT f = some ct) :
    _read_polygons f = .ok ⟨⟨f.geometry_type, f.coords,
      (f.offsets.take (f.offsets.length / 2), f.offsets.drop (f.offsets.length / 2))⟩,
      get_transformation_from_dict ct⟩ := by
  cases hms : f.multiscales with
  | nil => simp [firstCT, hms] at hct
  | cons ms rest =>
    cases hds : ms.datasets with
    | nil => simp [firstCT, hms, hds] at hct
    | cons d drest =>
      cases hcts : d.coordinateTransformations with
      | nil => simp [firstCT, hms, hds, hcts] at hct
      | cons c crest =>
        have hc : c = ct := by
          simpa [firstCT, hms, hds, hcts] using hct
        subst hc
        simp [_read_polygons, npSplit2, hoff, hcode, hname, hms, hds, hcts]

lemma read_polygons_no_transform (f : PolygonStore) (name : String)
    (hcode : geometryTypeName f.geometry_type = some name)
    (hoff : f.offsets.length % 2 = 0)
    (hname : name = f.geometry_name)
    (hct : firstCT f = none) :
    _read_polygons f = .error "list index out of range" := by
  cases hms : f.multiscales with
  | nil => simp [_read_polygons, npSplit2, hoff, hcode, hname, hms]
  | cons ms rest =>
    cases hds : ms.datasets with
    | nil => simp [_read_polygons, npSplit2, hoff, hcode, hname, hms, hds]
    | cons d drest =>
      cases hcts : d.coordinateTransformations with
      | nil => simp [_read_polygons, npSplit2, hoff, hcode, hname, hms, hds, hcts]
      | cons c crest => simp [firstCT, hms, hds, hcts] at hct

/-- C4: for a polygon element whose numeric geometry-type code has a
canonical enum name, if that name differs from the stored redundant
`geometry_name`, decoding fails fatally with the assertion error (which the
surrounding traversal propagates, aborting the read); if they agree (and
the single transformation record is reachable), decoding proceeds and
succeeds. -/
theorem polygons_geometry_name_check (f : PolygonStore) (name : String) (ct : TransformDesc)
    (hcode : geometryTypeName f.geometry_type = some name)
    (hoff : f.offsets.length % 2 = 0) :
    (name ≠ f.geometry_name →
      _read_polygons f = .error "AssertionError" ∧
      ∀ (polys : List (String × GeoDataFrame)) (k : String),
        processPolygons polys k (some f) = .error "AssertionError") ∧
    (name = f.geometry_name → firstCT f = some ct →
      _read_polygons f = .ok ⟨⟨f.geometry_type, f.coords,
        (f.offsets.take (f.offsets.length / 2), f.offsets.drop (f.offsets.length / 2))⟩,
        get_transformation_from_dict ct⟩) := by
  constructor
  · intro hname
    have he := read_polygons_mismatch f name hcode hoff hname
    exact ⟨he, fun polys k => by simp [processPolygons, he]⟩
  · intro hname hct
    exact read_polygons_ok f name ct hcode hoff hname hct

/-- Concrete polygon store with matching type code 3 / name "POLYGON" and
one transformation record. -/
def witnessPolyStore : PolygonStore :=
  { coords := [(0, 0), (1, 0), (1, 1)], offsets := [0, 3], geometry_type := 3,
    geometry_name := "POLYGON",
    multiscales := [⟨[⟨[⟨[("a", "b")]⟩]⟩]⟩] }

theorem polygons_geometry_name_check_witness :
    (("POLYGON" : String) ≠ witnessPolyStore.geometry_name →
      _read_polygons witnessPolyStore = .error "AssertionError" ∧
      ∀ (polys : List (String × GeoDataFrame)) (k : String),
        processPolygons polys k (some witnessPolyStore) = .error "AssertionError") ∧
    (("POLYGON" : String) = witnessPolyStore.geometry_name →
      firstCT witnessPolyStore = some ⟨[("a", "b")]⟩ →
      _read_polygons witnessPolyStore = .ok ⟨⟨witnessPolyStore.geometry_type,
        witnessPolyStore.coords,
        (witnessPolyStore.offsets.take (witnessPolyStore.offsets.length / 2),
         witnessPolyStore.offsets.drop (witnessPolyStore.offsets.length / 2))⟩,
        get_transformation_from_dict ⟨[("a", "b")]⟩⟩) :=
  polygons_geometry_name_check witnessPolyStore "POLYGON" ⟨[("a", "b")]⟩ rfl (by decide)

/-- Concrete polygon store declaring two transformation descriptions for
its first dataset. -/
def polyStoreTwoCT : PolygonStore :=
  { coords := [(0, 0), (1, 0), (1, 1)], offsets := [0, 3], geometry_type := 3,
    geometry_name := "POLYGON",
    multiscales := [⟨[⟨[⟨[("a", "b")]⟩, ⟨[("c", "d")]⟩]⟩]⟩] }

/-- C5 (counterexample to the claim as stated): this polygon store declares
two transformation descriptions, yet decoding does not fail fatally — it
succeeds, silently using the first description. -/
theorem polygons_transform_count_cex :
    ((polyStoreTwoCT.multiscales.headD
        ⟨[]⟩).datasets.headD ⟨[]⟩).coordinateTransformations.length = 2 ∧
    _read_polygons polyStoreTwoCT = .ok ⟨⟨3, [(0, 0), (1, 0), (1, 1)], ([0], [3])⟩,
      get_transformation_from_dict ⟨[("a", "b")]⟩⟩ ∧
    ∀ msg, _read_polygons polyStoreTwoCT ≠ .error msg :=
  ⟨rfl, rfl, fun _ h => Except.noConfusion h⟩

/-- C5 (amended): for a polygon element passing the geometry-name check
(with well-formed offsets), decoding fails fatally when no transformation
description is reachable at
`multiscales[0].datasets[0].coordinateTransformations[0]`; when one or
more descriptions are present, the first is parsed and attached as a
side-channel attribute on the returned collection (the `attrs` slot of the
`GeoDataFrame`, not a per-geometry field). -/
theorem polygons_transform_attach (f : PolygonStore) (name : String)
    (hcode : geometryTypeName f.geometry_type = some name)
    (hoff : f.offsets.length % 2 = 0)
    (hname : name = f.geometry_name) :
    (firstCT f = none → _read_polygons f = .error "list index out of range") ∧
    (∀ ct, firstCT f = some ct →
      _read_polygons f = .ok ⟨⟨f.geometry_type, f.coords,
        (f.offsets.take (f.offsets.length / 2), f.offsets.drop (f.offsets.length / 2))⟩,
        get_transformation_from_dict ct⟩ ∧
      ∀ g : GeoDataFrame, _read_polygons f = .ok g →
        g.attrsTransform = get_transformation_from_dict ct) := by
  constructor
  · intro hct
    exact read_polygons_no_transform f name hcode hoff hname hct
  · intro ct hct
    have hok := read_polygons_ok f name ct hcode hoff hname hct
    refine ⟨hok, fun g hg => ?_⟩
    rw [hok] at hg
    cases hg
    rfl

theorem polygons_transform_attach_witness :
    (firstCT polyStoreTwoCT = none →
      _read_polygons polyStoreTwoCT = .error "list index out of range") ∧
    (∀ ct, firstCT polyStoreTwoCT = some ct →
      _read_polygons polyStoreTwoCT = .ok ⟨⟨polyStoreTwoCT.geometry_type,
        polyStoreTwoCT.coords,
        (polyStoreTwoCT.offsets.take (polyStoreTwoCT.offsets.length / 2),
         polyStoreTwoCT.offsets.drop (polyStoreTwoCT.offsets.length / 2))⟩,
        get_transformation_from_dict ct⟩ ∧
      ∀ g : GeoDataFrame, _read_polygons polyStoreTwoCT = .ok g →
        g.attrsTransform = get_transformation_from_dict ct) :=
  polygons_transform_attach polyStoreTwoCT "POLYGON" rfl (by decide) rfl

/-! ## C8: process-wide table slot, last one wins -/

lemma readGroup_table {α : Type} (acc : SpatialData α) (g : TopGroup α) (acc' : SpatialData α)
    (h : readGroup acc g = .ok acc') :
    acc'.table = processTable acc.table g.tableStore := by
  unfold readGroup at h
  split at h
  · exact Except.noConfusion h
  · split at h
    · exact Except.noConfusion h
    · split at h
      · exact Except.noConfusion h
      · split at h
        · exact Except.noConfusion h
        · split at h
          · exact Except.noConfusion h
          · cases h
            rfl

lemma readGroups_table {α : Type} :
    ∀ (gs : List (TopGroup α)) (acc sd : SpatialData α),
      readGroups acc gs = .ok sd →
      sd.table = (match lastDeclaredTable gs with
                  | some t => some (normalizeTable t)
                  | none => acc.table) := by
  intro gs
  induction gs with
  | nil =>
    intro acc sd h
    cases h
    rfl
  | cons g gs ih =>
    intro acc sd h
    unfold readGroups at h
    split at h
    · exact Except.noConfusion h
    · rename_i acc' hg
      have ht := readGroup_table acc g acc' hg
      have hrec := ih acc' sd h
      rw [hrec]
      have hcons : lastDeclaredTable (g :: gs) =
          (match lastDeclaredTable gs with
           | some t => some t
           | none => g.tableStore) := rfl
      rw [hcons]
      cases hl : lastDeclaredTable gs with
      | some t => rfl
      | none =>
        rw [ht]
        cases g.tableStore <;> rfl

/-- C8: if several top-level groups declare a table, the returned
`SpatialData` retains exactly one, namely the (normalized) table of the
last-processed group that declared one; each later table silently
overwrites the earlier, with no error or merge. -/
theorem last_table_wins (gs : List (TopGroup Nat)) (sd : SpatialData Nat)
    (h : read_zarr gs = .ok sd) :
    sd.table = Option.map normalizeTable (lastDeclaredTable gs) := by
  have hr := readGroups_table gs (emptySpatialData Nat) sd h
  rw [hr]
  cases lastDeclaredTable gs <;> rfl

/-- Concrete top-level group declaring only a table. -/
def witnessGroupA : TopGroup Nat := ⟨"g0", [], none, none, none, none, some witnessTable1⟩

/-- Second concrete top-level group declaring only a table. -/
def witnessGroupB : TopGroup Nat := ⟨"g1", [], none, none, none, none, some witnessTable2⟩

theorem last_table_wins_witness :
    (emptySpatialData Nat).images = [] ∧
    { emptySpatialData Nat with table := some (normalizeTable witnessTable2) }.table =
      Option.map normalizeTable (lastDeclaredTable [witnessGroupA, witnessGroupB]) :=
  ⟨rfl, last_table_wins [witnessGroupA, witnessGroupB]
    { emptySpatialData Nat with table := some (normalizeTable witnessTable2) } rfl⟩

/-! ## C9: a missing labels sub-path is not an error -/

/-- C9: for a top-level group whose `labels` sub-path does not exist, the
read does not fail on that account: whenever the group's other parts
process successfully, `readGroup` succeeds, the labels mapping is left
exactly as it was (no entry for this group is added), and all other
elements of the group are still read into the result. -/
theorem missing_labels_tolerated (acc : SpatialData Nat) (g : TopGroup Nat)
    (imgs : List (String × Element Nat)) (pts : List (String × PointsElem))
    (polys : List (String × GeoDataFrame)) (shps : List (String × ShapesElem))
    (hl : g.labelsNodes = none)
    (h1 : processImageNodes acc.images g.key g.imageNodes = .ok imgs)
    (h2 : processPoints acc.points g.key g.pointsStore = .ok pts)
    (h3 : processPolygons acc.polygons g.key g.polygonsStore = .ok polys)
    (h4 : processShapes acc.shapes g.key g.shapesStore = .ok shps) :
    readGroup acc g =
      .ok ⟨imgs, acc.labels, pts, polys, shps, processTable acc.table g.tableStore⟩ := by
  unfold readGroup
  rw [h1, hl]
  show (match processLabelsLoc acc.labels g.key none with
        | .error e => Except.error e
        | .ok lbls => _) = _
  rw [show processLabelsLoc acc.labels g.key none = .ok acc.labels from rfl]
  rw [h2, h3, h4]

/-- Concrete group with an image node, a table, and no `labels` sub-path. -/
def witnessGroupC : TopGroup Nat :=
  ⟨"g2", [witnessZNodeImage], none, none, none, none, some witnessTable1⟩

theorem missing_labels_tolerated_witness :
    readGroup (emptySpatialData Nat) witnessGroupC =
      .ok ⟨[("g2", witnessElem1)], (emptySpatialData Nat).labels, [], [], [],
        processTable (emptySpatialData Nat).table witnessGroupC.tableStore⟩ :=
  missing_labels_tolerated (emptySpatialData Nat) witnessGroupC
    [("g2", witnessElem1)] [] [] [] rfl rfl rfl rfl rfl

end SpatialDataRead
